import Mathlib

/-!
Verification development for the `libre_cgm` glucose-polling client
(`get_libre.py`).  The embedding models the trend calculator
(`LibreDataHandler._calculate_trend`, backed by `scipy.stats.linregress`),
the authentication step of `LibreDataHandler.__init__`, the header
construction, the context-manager session lifecycle of the `__main__`
block, and the notification step `send_glucose_data`.

Numeric values are embedded as exact rationals; the remote HTTP calls are
embedded by passing in the response each call would receive.
-/

namespace LibreCGM

/-- One element of the `graphData` array of the fetched payload.  The code
only ever reads the `Value` field of these dictionaries. -/
structure GlucoseSample where
  Timestamp : String
  Value : ℚ
deriving DecidableEq, Repr

/-- The least-squares slope as computed by `scipy.stats.linregress(x, y)`:
`slope = ssxym / ssxm` where `ssxym` and `ssxm` come from `np.cov(x, y,
bias=1)`, i.e. the mean of deviation products.  The two input-validation
errors of `linregress` are modelled with `Except.error`.  (At the single
call site `x` is `np.arange(len(y))`, so the identical-`x` error never
fires for `len > 1`; with a single point scipy evaluates `0.0/0.0`, a NaN
that compares false against `0` on both sides — in this exact-arithmetic
embedding `0 / 0 = 0`, which lands in the same final `steady` branch.) -/
def linregress (x y : List ℚ) : Except String ℚ :=
  if x.isEmpty ∨ y.isEmpty then
    Except.error "Inputs must not be empty."
  else if 1 < x.length ∧ ∀ v ∈ x, v = x.getD 0 0 then
    Except.error "Cannot calculate a linear regression if all x values are identical"
  else
    let n : ℚ := x.length
    let xmean := x.sum / n
    let ymean := y.sum / n
    let ssxm := (x.map (fun v => (v - xmean) ^ 2)).sum / n
    let ssxym := (List.zipWith (fun a b => (a - xmean) * (b - ymean)) x y).sum / n
    Except.ok (ssxym / ssxm)

/-- Embedding of `LibreDataHandler._calculate_trend` (lines 117-129): take the trailing
10 samples when more than 9 exist, regress their values against
`np.arange`, and classify the sign of the slope. -/
def _calculate_trend (graphData : List GlucoseSample) : Except String String :=
  let series := if graphData.length > 9 then graphData.drop (graphData.length - 10) else graphData
  let trend := series.map (fun x => x.Value)
  match linregress ((List.range trend.length).map (fun i : ℕ => (i : ℚ))) trend with
  | Except.error e => Except.error e
  | Except.ok slope =>
      Except.ok (if slope > 0 then "up" else if slope < 0 then "down" else "steady")

/-- The trailing window of at most the 10 most recent samples (spec §3
invariant): all samples when fewer than 10 exist. -/
def trendWindow (graphData : List GlucoseSample) : List GlucoseSample :=
  graphData.drop (graphData.length - min 10 graphData.length)

/-- Modelled from the spec: the standard ordinary-least-squares slope
estimator covariance(x,y)/variance(x) over synthetic x-coordinates
`0, 1, 2, …`, written in the cleared-denominator form
`(n·Σxy − Σx·Σy) / (n·Σx² − (Σx)²)`. -/
def olsSlope (ys : List ℚ) : ℚ :=
  let n : ℚ := ys.length
  (n * (∑ i ∈ Finset.range ys.length, (i : ℚ) * ys.getD i 0) -
      (∑ i ∈ Finset.range ys.length, (i : ℚ)) * (∑ i ∈ Finset.range ys.length, ys.getD i 0)) /
    (n * (∑ i ∈ Finset.range ys.length, (i : ℚ) ^ 2) -
      (∑ i ∈ Finset.range ys.length, (i : ℚ)) ^ 2)

/-! Bridging lemmas between list sums and `Finset.range` sums. -/

lemma sum_map_range (n : ℕ) (f : ℕ → ℚ) :
    ((List.range n).map f).sum = ∑ i ∈ Finset.range n, f i := by
  induction n with
  | zero => simp
  | succ m ih =>
      rw [List.range_succ, List.map_append, List.sum_append, Finset.sum_range_succ, ih]
      simp

lemma sum_eq_range_getD (l : List ℚ) :
    l.sum = ∑ i ∈ Finset.range l.length, l.getD i 0 := by
  induction l with
  | nil => simp
  | cons a t ih =>
      rw [List.sum_cons, List.length_cons, Finset.sum_range_succ', ih]
      simp [add_comm]

lemma zipWith_sum_getD (f : ℚ → ℚ → ℚ) (l₁ : List ℚ) :
    ∀ l₂ : List ℚ, l₁.length = l₂.length →
      (List.zipWith f l₁ l₂).sum =
        ∑ i ∈ Finset.range l₁.length, f (l₁.getD i 0) (l₂.getD i 0) := by
  induction l₁ with
  | nil => intro l₂ h; simp
  | cons a t ih =>
      intro l₂ h
      cases l₂ with
      | nil => simp at h
      | cons b t₂ =>
          rw [List.zipWith_cons_cons, List.sum_cons, List.length_cons, Finset.sum_range_succ',
            ih t₂ (by simpa using h)]
          simp [add_comm]

lemma range_map_getD (n i : ℕ) (h : i < n) :
    ((List.range n).map (fun j : ℕ => (j : ℚ))).getD i 0 = (i : ℚ) := by
  have hlen : i < ((List.range n).map (fun j : ℕ => (j : ℚ))).length := by
    rw [List.length_map, List.length_range]; exact h
  rw [List.getD_eq_getElem _ _ hlen, List.getElem_map, List.getElem_range]

lemma div_div_scale (A B N : ℚ) (hN : N ≠ 0) : (A / N) / (B / N) = (N * A) / (N * B) := by
  rcases eq_or_ne B 0 with hB | hB
  · simp [hB]
  · field_simp
    ring

lemma dev_prod_sum (n : ℕ) (x y : ℕ → ℚ) (hn : (n : ℚ) ≠ 0) :
    ∑ i ∈ Finset.range n,
        ((x i - (∑ j ∈ Finset.range n, x j) / (n : ℚ)) *
          (y i - (∑ j ∈ Finset.range n, y j) / (n : ℚ)))
      = (∑ i ∈ Finset.range n, x i * y i)
        - (∑ i ∈ Finset.range n, x i) * (∑ i ∈ Finset.range n, y i) / (n : ℚ) := by
  have expand : ∀ i ∈ Finset.range n,
      (x i - (∑ j ∈ Finset.range n, x j) / (n : ℚ)) *
        (y i - (∑ j ∈ Finset.range n, y j) / (n : ℚ))
      = x i * y i - ((∑ j ∈ Finset.range n, y j) / (n : ℚ)) * x i
          - ((∑ j ∈ Finset.range n, x j) / (n : ℚ)) * y i
          + ((∑ j ∈ Finset.range n, x j) / (n : ℚ)) *
              ((∑ j ∈ Finset.range n, y j) / (n : ℚ)) := by
    intro i _
    ring
  rw [Finset.sum_congr rfl expand, Finset.sum_add_distrib, Finset.sum_sub_distrib,
    Finset.sum_sub_distrib, ← Finset.mul_sum, ← Finset.mul_sum, Finset.sum_const,
    Finset.card_range, nsmul_eq_mul]
  field_simp
  ring

lemma linregress_arange (ys : List ℚ) (h : ys ≠ []) :
    linregress ((List.range ys.length).map (fun i : ℕ => (i : ℚ))) ys
      = Except.ok (olsSlope ys) := by
  have hn0 : ys.length ≠ 0 := by
    intro hc
    exact h (List.eq_nil_of_length_eq_zero hc)
  have hN0 : ((ys.length : ℚ)) ≠ 0 := Nat.cast_ne_zero.mpr hn0
  have hg1 : ¬(((List.range ys.length).map (fun i : ℕ => (i : ℚ))).isEmpty = true
      ∨ ys.isEmpty = true) := by
    rintro (hc | hc)
    · simp only [List.isEmpty_iff, List.map_eq_nil_iff, List.range_eq_nil] at hc
      exact hn0 hc
    · rw [List.isEmpty_iff] at hc
      exact h hc
  have hg2 : ¬(1 < ((List.range ys.length).map (fun i : ℕ => (i : ℚ))).length
      ∧ ∀ v ∈ (List.range ys.length).map (fun i : ℕ => (i : ℚ)),
          v = ((List.range ys.length).map (fun i : ℕ => (i : ℚ))).getD 0 0) := by
    rintro ⟨h1, hall⟩
    rw [List.length_map, List.length_range] at h1
    have h1x : (1 : ℚ) ∈ (List.range ys.length).map (fun i : ℕ => (i : ℚ)) :=
      List.mem_map.mpr ⟨1, List.mem_range.mpr h1, by norm_num⟩
    have h10 := hall 1 h1x
    rw [range_map_getD ys.length 0 (by omega)] at h10
    norm_num at h10
  rw [linregress, if_neg hg1, if_neg hg2]
  simp only [Except.ok.injEq]
  rw [List.length_map, List.length_range, List.map_map, sum_map_range, sum_map_range,
    zipWith_sum_getD _ _ ys (by rw [List.length_map, List.length_range]),
    List.length_map, List.length_range, sum_eq_range_getD ys]
  rw [Finset.sum_congr rfl (fun i hi => by
    rw [range_map_getD ys.length i (Finset.mem_range.mp hi)])]
  simp only [Function.comp, pow_two, olsSlope]
  rw [div_div_scale _ _ _ hN0,
    dev_prod_sum ys.length (fun i : ℕ => (i : ℚ)) (fun i => ys.getD i 0) hN0,
    dev_prod_sum ys.length (fun i : ℕ => (i : ℚ)) (fun i : ℕ => (i : ℚ)) hN0]
  congr 1
  · field_simp
    ring
  · field_simp
    ring

/-- The trend classification as a function of the window value list:
`_calculate_trend` factors through this after the window is taken. -/
def trendOfValues (vals : List ℚ) : Except String String :=
  match linregress ((List.range vals.length).map (fun i : ℕ => (i : ℚ))) vals with
  | Except.error e => Except.error e
  | Except.ok slope =>
      Except.ok (if slope > 0 then "up" else if slope < 0 then "down" else "steady")

lemma series_eq_trendWindow (gd : List GlucoseSample) :
    (if gd.length > 9 then gd.drop (gd.length - 10) else gd) = trendWindow gd := by
  rw [trendWindow]
  rcases Nat.lt_or_ge 9 gd.length with h9 | h9
  · rw [if_pos h9]
    congr 1
    omega
  · rw [if_neg (by omega)]
    have h0 : gd.length - min 10 gd.length = 0 := by omega
    rw [h0, List.drop_zero]

lemma calculate_trend_eq (gd : List GlucoseSample) :
    _calculate_trend gd = trendOfValues ((trendWindow gd).map (fun s => s.Value)) := by
  simp only [_calculate_trend, trendOfValues, series_eq_trendWindow]

lemma trendOfValues_ok (vals : List ℚ) (h : vals ≠ []) :
    trendOfValues vals =
      Except.ok
        (if olsSlope vals > 0 then "up"
         else if olsSlope vals < 0 then "down" else "steady") := by
  rw [trendOfValues, linregress_arange vals h]

lemma trendWindow_length (gd : List GlucoseSample) :
    (trendWindow gd).length = min 10 gd.length := by
  rw [trendWindow, List.length_drop]
  omega

lemma trendWindow_of_le (gd : List GlucoseSample) (h : gd.length ≤ 10) :
    trendWindow gd = gd := by
  rw [trendWindow]
  have h0 : gd.length - min 10 gd.length = 0 := by omega
  rw [h0, List.drop_zero]

lemma trendWindow_idem (gd : List GlucoseSample) :
    trendWindow (trendWindow gd) = trendWindow gd :=
  trendWindow_of_le _ (by rw [trendWindow_length]; omega)

lemma trendWindow_map_ne_nil (gd : List GlucoseSample) (h : gd ≠ []) :
    (trendWindow gd).map (fun s => s.Value) ≠ [] := by
  have h0 : 0 < gd.length := List.length_pos.mpr h
  have hlen : ((trendWindow gd).map (fun s => s.Value)).length ≠ 0 := by
    rw [List.length_map, trendWindow_length]
    omega
  intro hc
  rw [hc] at hlen
  exact hlen rfl

/-! Sign of the least-squares slope numerator for monotone series. -/

lemma double_sum_expand (n : ℕ) (x y : ℕ → ℚ) :
    ∑ i ∈ Finset.range n, ∑ j ∈ Finset.range n, (x i - x j) * (y i - y j)
      = 2 * ((n : ℚ) * (∑ i ∈ Finset.range n, x i * y i)
          - (∑ i ∈ Finset.range n, x i) * (∑ i ∈ Finset.range n, y i)) := by
  have inner : ∀ i ∈ Finset.range n,
      ∑ j ∈ Finset.range n, (x i - x j) * (y i - y j)
        = (n : ℚ) * (x i * y i) - x i * (∑ j ∈ Finset.range n, y j)
            - (∑ j ∈ Finset.range n, x j) * y i + ∑ j ∈ Finset.range n, x j * y j := by
    intro i _
    have e : ∀ j ∈ Finset.range n, (x i - x j) * (y i - y j)
        = x i * y i - x i * y j - x j * y i + x j * y j := by
      intro j _
      ring
    rw [Finset.sum_congr rfl e]
    simp only [Finset.sum_add_distrib, Finset.sum_sub_distrib, ← Finset.mul_sum,
      ← Finset.sum_mul, Finset.sum_const, Finset.card_range, nsmul_eq_mul]
    ring
  rw [Finset.sum_congr rfl inner]
  simp only [Finset.sum_add_distrib, Finset.sum_sub_distrib, ← Finset.mul_sum,
    ← Finset.sum_mul, Finset.sum_const, Finset.card_range, nsmul_eq_mul]
  ring

lemma slopeNum_pos (n : ℕ) (y : ℕ → ℚ) (h2 : 2 ≤ n)
    (hy : ∀ i j, i < j → j < n → y i < y j) :
    0 < (n : ℚ) * (∑ i ∈ Finset.range n, (i : ℚ) * y i)
        - (∑ i ∈ Finset.range n, (i : ℚ)) * (∑ i ∈ Finset.range n, y i) := by
  have key := double_sum_expand n (fun i : ℕ => (i : ℚ)) y
  have hterm : ∀ i j, i < n → j < n → 0 ≤ ((i : ℚ) - (j : ℚ)) * (y i - y j) := by
    intro i j hi hj
    rcases lt_trichotomy i j with hij | rfl | hij
    · have ha : (i : ℚ) - (j : ℚ) < 0 := by
        rw [sub_neg]
        exact_mod_cast hij
      have hb : y i - y j < 0 := sub_neg.mpr (hy i j hij hj)
      exact le_of_lt (mul_pos_of_neg_of_neg ha hb)
    · simp
    · have ha : 0 < (i : ℚ) - (j : ℚ) := by
        rw [sub_pos]
        exact_mod_cast hij
      exact le_of_lt (mul_pos ha (sub_pos.mpr (hy j i hij hi)))
  have hpos :
      0 < ∑ i ∈ Finset.range n, ∑ j ∈ Finset.range n, ((i : ℚ) - (j : ℚ)) * (y i - y j) := by
    apply Finset.sum_pos'
    · intro i hi
      exact Finset.sum_nonneg fun j hj =>
        hterm i j (Finset.mem_range.mp hi) (Finset.mem_range.mp hj)
    · refine ⟨0, Finset.mem_range.mpr (by omega), ?_⟩
      apply Finset.sum_pos'
      · intro j hj
        exact hterm 0 j (by omega) (Finset.mem_range.mp hj)
      · refine ⟨1, Finset.mem_range.mpr (by omega), ?_⟩
        have hy01 : y 0 - y 1 < 0 := sub_neg.mpr (hy 0 1 (by omega) (by omega))
        have hx01 : ((0 : ℕ) : ℚ) - ((1 : ℕ) : ℚ) < 0 := by norm_num
        exact mul_pos_of_neg_of_neg hx01 hy01
  rw [key] at hpos
  linarith

lemma slopeNum_neg (n : ℕ) (y : ℕ → ℚ) (h2 : 2 ≤ n)
    (hy : ∀ i j, i < j → j < n → y j < y i) :
    (n : ℚ) * (∑ i ∈ Finset.range n, (i : ℚ) * y i)
        - (∑ i ∈ Finset.range n, (i : ℚ)) * (∑ i ∈ Finset.range n, y i) < 0 := by
  have hneg := slopeNum_pos n (fun i => - y i) h2 (fun i j hij hj => by
    exact neg_lt_neg (hy i j hij hj))
  simp only [mul_neg, Finset.sum_neg_distrib] at hneg
  linarith

lemma slopeDen_pos (n : ℕ) (h2 : 2 ≤ n) :
    0 < (n : ℚ) * (∑ i ∈ Finset.range n, (i : ℚ) ^ 2)
        - (∑ i ∈ Finset.range n, (i : ℚ)) ^ 2 := by
  have hpos := slopeNum_pos n (fun i : ℕ => (i : ℚ)) h2 (fun i j hij hj => by
    show (i : ℚ) < (j : ℚ)
    exact_mod_cast hij)
  have hsq : ∑ i ∈ Finset.range n, ((i : ℚ)) ^ 2
      = ∑ i ∈ Finset.range n, (i : ℚ) * (i : ℚ) :=
    Finset.sum_congr rfl fun i _ => pow_two _
  rw [hsq, pow_two]
  exact hpos

lemma pairwise_lt_getD (vals : List ℚ) (hv : List.Pairwise (· < ·) vals) :
    ∀ i j, i < j → j < vals.length → vals.getD i 0 < vals.getD j 0 := by
  intro i j hij hj
  have hi : i < vals.length := lt_trans hij hj
  rw [List.getD_eq_getElem _ _ hi, List.getD_eq_getElem _ _ hj]
  exact List.pairwise_iff_getElem.mp hv i j hi hj hij

lemma olsSlope_pos (vals : List ℚ) (h2 : 2 ≤ vals.length)
    (hv : List.Pairwise (· < ·) vals) : 0 < olsSlope vals := by
  simp only [olsSlope]
  exact div_pos
    (slopeNum_pos vals.length (fun i => vals.getD i 0) h2 (pairwise_lt_getD vals hv))
    (slopeDen_pos vals.length h2)

lemma olsSlope_neg (vals : List ℚ) (h2 : 2 ≤ vals.length)
    (hv : List.Pairwise (· > ·) vals) : olsSlope vals < 0 := by
  simp only [olsSlope]
  apply div_neg_of_neg_of_pos
  · apply slopeNum_neg vals.length (fun i => vals.getD i 0) h2
    intro i j hij hj
    have hi : i < vals.length := lt_trans hij hj
    rw [List.getD_eq_getElem _ _ hi, List.getD_eq_getElem _ _ hj]
    exact List.pairwise_iff_getElem.mp hv i j hi hj hij
  · exact slopeDen_pos vals.length h2

/-! Concrete series used by witnesses (values from the scenarios of the spec). -/

def sampleRise : List GlucoseSample :=
  [⟨"08:00", 100⟩, ⟨"08:05", 105⟩, ⟨"08:10", 110⟩, ⟨"08:15", 120⟩, ⟨"08:20", 130⟩]

def sampleFall : List GlucoseSample :=
  [⟨"08:00", 130⟩, ⟨"08:05", 120⟩, ⟨"08:10", 110⟩, ⟨"08:15", 105⟩, ⟨"08:20", 100⟩]

def sampleFlat : List GlucoseSample :=
  [⟨"08:00", 100⟩, ⟨"08:05", 100⟩, ⟨"08:10", 100⟩, ⟨"08:15", 100⟩]

def sampleEleven : List GlucoseSample :=
  [⟨"s01", 90⟩, ⟨"s02", 91⟩, ⟨"s03", 93⟩, ⟨"s04", 96⟩, ⟨"s05", 100⟩, ⟨"s06", 104⟩,
   ⟨"s07", 107⟩, ⟨"s08", 109⟩, ⟨"s09", 110⟩, ⟨"s10", 111⟩, ⟨"s11", 113⟩]

/-- C1: for every accepted (nonempty) series, the returned label is exactly
the sign classification of the least-squares slope over the trend window:
`up` when the slope is positive, `down` when negative, `steady` on exact
equality with zero, with no tolerance band. -/
theorem trend_label_matches_slope_sign (gd : List GlucoseSample) (h : gd ≠ []) :
    _calculate_trend gd =
      Except.ok
        (if olsSlope ((trendWindow gd).map (fun s => s.Value)) > 0 then "up"
         else if olsSlope ((trendWindow gd).map (fun s => s.Value)) < 0 then "down"
         else "steady") := by
  rw [calculate_trend_eq, trendOfValues_ok _ (trendWindow_map_ne_nil gd h)]

/-- Witness for `trend_label_matches_slope_sign` at a concrete series. -/
theorem trend_label_matches_slope_sign_witness :
    sampleRise ≠ [] ∧
      _calculate_trend sampleRise =
        Except.ok
          (if olsSlope ((trendWindow sampleRise).map (fun s => s.Value)) > 0 then "up"
           else if olsSlope ((trendWindow sampleRise).map (fun s => s.Value)) < 0 then "down"
           else "steady") :=
  ⟨by decide, trend_label_matches_slope_sign sampleRise (by decide)⟩

lemma trendWindow_append (p s : List GlucoseSample) (h : 10 ≤ s.length) :
    trendWindow (p ++ s) = trendWindow s := by
  rw [trendWindow, trendWindow, List.length_append]
  have h1 : p.length + s.length - min 10 (p.length + s.length)
      = p.length + (s.length - min 10 s.length) := by omega
  rw [h1, List.drop_append]

/-- C2: the trend is computed over exactly the trailing `min(10, n)`
samples, and for a series longer than 10 samples prepending arbitrary
earlier samples does not change the label. -/
theorem trend_trailing_window :
    (∀ gd : List GlucoseSample, _calculate_trend gd = _calculate_trend (trendWindow gd))
      ∧ ∀ (p s : List GlucoseSample), 10 < s.length →
          _calculate_trend (p ++ s) = _calculate_trend s := by
  constructor
  · intro gd
    rw [calculate_trend_eq, calculate_trend_eq (trendWindow gd), trendWindow_idem]
  · intro p s hs
    rw [calculate_trend_eq, calculate_trend_eq s, trendWindow_append p s (by omega)]

/-- Witness for `trend_trailing_window` at a concrete 11-sample series. -/
theorem trend_trailing_window_witness :
    10 < sampleEleven.length ∧
      _calculate_trend ([⟨"s00", 500⟩] ++ sampleEleven) = _calculate_trend sampleEleven :=
  ⟨by decide, trend_trailing_window.2 [⟨"s00", 500⟩] sampleEleven (by decide)⟩

/-- C5: a single-sample series yields `steady` and no failure: the scipy
`0.0/0.0` NaN slope compares false against zero on both sides, exactly as
the exact-arithmetic `0 / 0 = 0` does here, so the `steady` branch is
taken rather than an exception. -/
theorem trend_single_sample (s : GlucoseSample) :
    _calculate_trend [s] = Except.ok "steady" := by
  rw [calculate_trend_eq, trendWindow_of_le _ (by simp)]
  have hol : olsSlope [s.Value] = 0 := by
    simp [olsSlope]
  rw [show ([s] : List GlucoseSample).map (fun t => t.Value) = [s.Value] from rfl,
    trendOfValues_ok [s.Value] (by simp), hol]
  norm_num

/-- C3: a series of length at least 2 with strictly increasing values is
classified `up`, and one with strictly decreasing values `down`: the
least-squares slope over positions `0, 1, 2, …` is strictly positive
resp. strictly negative. -/
theorem trend_strict_monotone (gd : List GlucoseSample) (h2 : 2 ≤ gd.length) :
    (List.Pairwise (· < ·) (gd.map (fun s => s.Value)) →
        _calculate_trend gd = Except.ok "up")
    ∧ (List.Pairwise (· > ·) (gd.map (fun s => s.Value)) →
        _calculate_trend gd = Except.ok "down") := by
  have hne : gd ≠ [] := by
    intro hc
    rw [hc] at h2
    simp at h2
  have hw2 : 2 ≤ ((trendWindow gd).map (fun s => s.Value)).length := by
    rw [List.length_map, trendWindow_length]
    omega
  have hmap : (trendWindow gd).map (fun s => s.Value)
      = (gd.map (fun s => s.Value)).drop (gd.length - min 10 gd.length) := by
    rw [trendWindow, List.map_drop]
  constructor
  · intro hmono
    have hvw : List.Pairwise (· < ·) ((trendWindow gd).map (fun s => s.Value)) := by
      rw [hmap]
      exact List.Pairwise.sublist (List.drop_sublist _ _) hmono
    rw [calculate_trend_eq, trendOfValues_ok _ (trendWindow_map_ne_nil gd hne),
      if_pos (olsSlope_pos _ hw2 hvw)]
  · intro hmono
    have hvw : List.Pairwise (· > ·) ((trendWindow gd).map (fun s => s.Value)) := by
      rw [hmap]
      exact List.Pairwise.sublist (List.drop_sublist _ _) hmono
    have hneg := olsSlope_neg _ hw2 hvw
    rw [calculate_trend_eq, trendOfValues_ok _ (trendWindow_map_ne_nil gd hne),
      if_neg (asymm hneg), if_pos hneg]

/-- Witness for `trend_strict_monotone` at the rising and falling
scenario series of the spec. -/
theorem trend_strict_monotone_witness :
    (2 ≤ sampleRise.length ∧ _calculate_trend sampleRise = Except.ok "up")
    ∧ (2 ≤ sampleFall.length ∧ _calculate_trend sampleFall = Except.ok "down") :=
  ⟨⟨by decide, (trend_strict_monotone sampleRise (by decide)).1
      (by norm_num [sampleRise, List.pairwise_cons])⟩,
   ⟨by decide, (trend_strict_monotone sampleFall (by decide)).2
      (by norm_num [sampleFall, List.pairwise_cons])⟩⟩

lemma olsSlope_const (vals : List ℚ) (c : ℚ) (hallc : ∀ v ∈ vals, v = c) :
    olsSlope vals = 0 := by
  have hval : ∀ i ∈ Finset.range vals.length, vals.getD i 0 = c := by
    intro i hi
    have hi' : i < vals.length := Finset.mem_range.mp hi
    rw [List.getD_eq_getElem _ _ hi']
    exact hallc _ (List.getElem_mem hi')
  have h1 : ∑ i ∈ Finset.range vals.length, (i : ℚ) * vals.getD i 0
      = (∑ i ∈ Finset.range vals.length, (i : ℚ)) * c := by
    rw [Finset.sum_mul]
    exact Finset.sum_congr rfl (fun i hi => by rw [hval i hi])
  have h2 : ∑ i ∈ Finset.range vals.length, vals.getD i 0 = (vals.length : ℚ) * c := by
    rw [Finset.sum_congr rfl hval, Finset.sum_const, Finset.card_range, nsmul_eq_mul]
  simp only [olsSlope]
  rw [h1, h2, div_eq_zero_iff]
  left
  ring

/-- C4: a series of constant value is classified `steady`: the
least-squares slope is exactly zero. -/
theorem trend_constant_series (gd : List GlucoseSample) (c : ℚ) (h : gd ≠ [])
    (hc : ∀ x ∈ gd, x.Value = c) :
    _calculate_trend gd = Except.ok "steady" := by
  rw [calculate_trend_eq, trendOfValues_ok _ (trendWindow_map_ne_nil gd h)]
  have hallc : ∀ v ∈ (trendWindow gd).map (fun s => s.Value), v = c := by
    intro v hv
    rcases List.mem_map.mp hv with ⟨s, hs, rfl⟩
    exact hc s (List.mem_of_mem_drop hs)
  rw [olsSlope_const _ c hallc]
  norm_num

/-- Witness for `trend_constant_series` at the constant scenario
series of the spec. -/
theorem trend_constant_series_witness :
    sampleFlat ≠ [] ∧ _calculate_trend sampleFlat = Except.ok "steady" :=
  ⟨by decide, trend_constant_series sampleFlat 100 (by decide)
    (by norm_num [sampleFlat, List.forall_mem_cons])⟩

/-! The HTTP/session pipeline: responses are passed in as values; Python
exceptions become `Except.error`; Python in-place mutations become
explicit state passing. -/

/-- A JSON value, the shape of parsed response bodies. -/
inductive Json where
  | str : String → Json
  | num : ℚ → Json
  | null : Json
  | arr : List Json → Json
  | obj : List (String × Json) → Json

/-- Dictionary lookup on a JSON value: `some` only on objects holding the
key. -/
def Json.lookup : Json → String → Option Json
  | Json.obj fields, key => List.lookup key fields
  | _, _ => none

/-- Errors a run can raise: `requests.HTTPError` from `raise_for_status`,
Python `KeyError`/`TypeError` on a missing dictionary path (collapsed into
one constructor carrying the missing key), and the scipy `ValueError`. -/
inductive RunError where
  | httpError : Nat → RunError
  | keyError : String → RunError
  | valueError : String → RunError
deriving DecidableEq, Repr

/-- An HTTP response as the code observes it: final status code and parsed
body. -/
structure Response (α : Type) where
  status_code : Nat
  body : α

/-- Embedding of `requests.Response.raise_for_status`: raises `HTTPError` exactly for
client errors (4xx) and server errors (5xx); any other status passes. -/
def raise_for_status (status : Nat) : Except RunError Unit :=
  if 400 ≤ status ∧ status < 600 then Except.error (RunError.httpError status)
  else Except.ok ()

/-- Embedding of `LibreDataHandler._post` (lines 93-104): POST, `raise_for_status`,
return the parsed JSON body. -/
def _post (resp : Response Json) : Except RunError Json := do
  let _ ← raise_for_status resp.status_code
  pure resp.body

/-- Embedding of `LibreDataHandler._get` (lines 106-115), with the graph body already
parsed into its structured shape. -/
def _get {α : Type} (resp : Response α) : Except RunError α := do
  let _ ← raise_for_status resp.status_code
  pure resp.body

/-- Python `d[key]` on a parsed JSON value: the value when present,
`KeyError` (or `TypeError` when not a dict; collapsed) otherwise. -/
def getItem (j : Json) (key : String) : Except RunError Json :=
  match j.lookup key with
  | some v => Except.ok v
  | none => Except.error (RunError.keyError key)

/-- Lines 34-35 of `__init__`: POST the credentials to the login endpoint
and extract the token at the path data.authTicket.token of the response. -/
def authenticate (loginResponse : Response Json) : Except RunError Json := do
  let auth_response ← _post loginResponse
  let d ← getItem auth_response "data"
  let t ← getItem d "authTicket"
  getItem t "token"

/-- The `data.authTicket.token` path of a response body, written as the
spec describes it.  `authenticate` succeeds on a passing status exactly
when this is `some`. -/
def tokenPath (body : Json) : Option Json :=
  (body.lookup "data").bind fun d => (d.lookup "authTicket").bind fun a => a.lookup "token"

/-- Embedding of `LibreDataHandler._build_headers` (lines 69-82): the fixed header
dictionary. -/
def _build_headers : List (String × String) :=
  [("version", "4.7"), ("product", "llu.ios"),
   ("Accept", "application/json"), ("Content-Type", "application/json")]

/-- Python dict assignment `d[key] = val`: overwrite in place when the key
exists, else append. -/
def dictInsert (d : List (String × String)) (key val : String) :
    List (String × String) :=
  if d.any (fun p => p.1 == key) then
    d.map (fun p => if p.1 == key then (key, val) else p)
  else d ++ [(key, val)]

/-- Embedding of `LibreDataHandler.add_bearer_token_to_headers` (lines 84-91):
the assignment of the Bearer entry into the held header dictionary, with
the mutation of `self.headers` made explicit. -/
def add_bearer_token_to_headers (headers : List (String × String)) (token : String) :
    List (String × String) :=
  dictInsert headers "Authorization" ("Bearer " ++ token)

/-- Python `f"{token}"` rendering of the JSON value interpolated into the
bearer header; the string case (the only one the API produces) is exact. -/
def Json.pyStr : Json → String
  | Json.str s => s
  | Json.num q => toString q
  | Json.null => "None"
  | Json.arr _ => "list"
  | Json.obj _ => "dict"

/-- The latest reading of the fetched payload, the glucoseItem object
under the data.connection path.  `Trend` holds
whatever the fetch returned (`none` when the key is absent) until
`send_glucose_data` overwrites it. -/
structure GlucoseItem where
  Timestamp : String
  Value : ℚ
  Trend : Option Json

/-- The `connection` object of the fetched payload. -/
structure ConnectionData where
  glucoseItem : GlucoseItem

/-- The `data` object of the fetched payload: the latest reading plus the
graph series. -/
structure GraphData where
  connection : ConnectionData
  graphData : List GlucoseSample

/-- The payload stored in `self.glucose_data` after `get_graph`. -/
structure GlucoseData where
  data : GraphData

/-- Embedding of `LibreDataHandler.get_graph` (lines 147-156): authorized GET of the
graph endpoint, storing the parsed payload. -/
def get_graph (resp : Response GlucoseData) : Except RunError GlucoseData :=
  _get resp

/-- Outcome of `LibreDataHandler.send_glucose_data` (lines 190-205):
the stored payload after the call (the `Trend` write mutates it), the
body POSTed to the destination when the POST was reached, and the
raised-or-returned outcome. -/
structure SendResult where
  glucose_data : GlucoseData
  posted : Option Json
  outcome : Except RunError Unit

/-- Embedding of `LibreDataHandler.send_glucose_data`: compute the trend, write it into
the `glucoseItem` of the held payload under the `Trend` key, POST
`{time, value, trend}` to the destination, then `raise_for_status`. -/
def send_glucose_data (gd : GlucoseData) (destinationStatus : Nat) : SendResult :=
  match _calculate_trend gd.data.graphData with
  | Except.error e =>
      { glucose_data := gd, posted := none,
        outcome := Except.error (RunError.valueError e) }
  | Except.ok trendLabel =>
      let glucose_item := gd.data.connection.glucoseItem
      let item := { glucose_item with Trend := some (Json.str trendLabel) }
      let gd := { gd with data := { gd.data with connection := { glucoseItem := item } } }
      let data := Json.obj [("time", Json.str item.Timestamp),
                            ("value", Json.num item.Value),
                            ("trend", Json.str trendLabel)]
      { glucose_data := gd, posted := some data,
        outcome := raise_for_status destinationStatus }

/-- Embedding of `LibreDataHandler.__init__` (lines 24-35): opens the
`requests.Session`, builds the base headers, POSTs the credentials to the
login endpoint and attaches the bearer token.  Any exception escapes the
constructor before a `with` statement could enter its body. -/
def LibreDataHandler.init (loginResponse : Response Json) :
    Except RunError (List (String × String)) := do
  let token ← authenticate loginResponse
  pure (add_bearer_token_to_headers _build_headers token.pyStr)

/-- The responses of the three remote calls of one run. -/
structure Env where
  loginResponse : Response Json
  graphResponse : Response GlucoseData
  destinationStatus : Nat

/-- Observable outcome of one run of the `__main__` block. -/
structure MainResult where
  sessionClosed : Bool
  outcome : Except RunError Unit
  glucose_data : Option GlucoseData
  posted : Option Json

/-- The `__main__` block (lines 208-211): `with LibreDataHandler() as
libre: libre.get_graph(libre.SGID); libre.send_glucose_data()`.  The Python
`with` statement runs `__exit__` (which closes the session) only when `__init__`
returned normally and the body was entered; an exception inside
`__init__` propagates with the session left open. -/
def runMain (env : Env) : MainResult :=
  match LibreDataHandler.init env.loginResponse with
  | Except.error e =>
      { sessionClosed := false, outcome := Except.error e,
        glucose_data := none, posted := none }
  | Except.ok _headers =>
      match get_graph env.graphResponse with
      | Except.error e =>
          { sessionClosed := true, outcome := Except.error e,
            glucose_data := none, posted := none }
      | Except.ok gd =>
          let r := send_glucose_data gd env.destinationStatus
          { sessionClosed := true, outcome := r.outcome,
            glucose_data := some r.glucose_data, posted := r.posted }

/-- The login body used by the scenario of the spec. -/
def loginBody : Json :=
  Json.obj [("data", Json.obj [("authTicket", Json.obj [("token", Json.str "abc")])])]

/-- C6 counterexample: `raise_for_status` only raises for 4xx/5xx, so a
non-2xx status such as 301 with a token in the body yields the token
instead of failing, contradicting the claimed failure on any non-2xx
status. -/
theorem authenticate_non2xx_succeeds :
    authenticate { status_code := 301, body := loginBody } = Except.ok (Json.str "abc")
      ∧ ¬(200 ≤ 301 ∧ 301 < 300) := by
  constructor
  · rfl
  · omega

/-- C6 amended: on a 2xx response whose body has the token at
`data.authTicket.token`, `authenticate` returns it; on any 4xx/5xx status
it fails with the HTTP error; on a passing status with the token path
missing it fails with a key error. -/
theorem authenticate_spec (r : Response Json) :
    (∀ tok : Json, 200 ≤ r.status_code → r.status_code < 300 →
        tokenPath r.body = some tok → authenticate r = Except.ok tok)
    ∧ (400 ≤ r.status_code → r.status_code < 600 →
        authenticate r = Except.error (RunError.httpError r.status_code))
    ∧ (¬(400 ≤ r.status_code ∧ r.status_code < 600) → tokenPath r.body = none →
        ∃ key, authenticate r = Except.error (RunError.keyError key)) := by
  refine ⟨?_, ?_, ?_⟩
  · intro tok h1 h2 hpath
    have hrs : raise_for_status r.status_code = Except.ok () := by
      rw [raise_for_status, if_neg (by omega)]
    rw [tokenPath] at hpath
    cases hd : r.body.lookup "data" with
    | none =>
        rw [hd] at hpath
        simp [Option.bind] at hpath
    | some d =>
        rw [hd] at hpath
        simp only [Option.bind] at hpath
        cases ha : d.lookup "authTicket" with
        | none =>
            rw [ha] at hpath
            simp [Option.bind] at hpath
        | some a =>
            rw [ha] at hpath
            simp only [Option.bind] at hpath
            simp [authenticate, _post, hrs, getItem, hd, ha, hpath, bind, Except.bind, pure, Except.pure]
  · intro h1 h2
    have hrs : raise_for_status r.status_code
        = Except.error (RunError.httpError r.status_code) := by
      rw [raise_for_status, if_pos ⟨h1, h2⟩]
    simp [authenticate, _post, hrs, bind, Except.bind, pure, Except.pure]
  · intro hny hpath
    have hrs : raise_for_status r.status_code = Except.ok () := by
      rw [raise_for_status, if_neg hny]
    rw [tokenPath] at hpath
    cases hd : r.body.lookup "data" with
    | none =>
        refine ⟨"data", ?_⟩
        simp [authenticate, _post, hrs, getItem, hd, bind, Except.bind, pure, Except.pure]
    | some d =>
        rw [hd] at hpath
        simp only [Option.bind] at hpath
        cases ha : d.lookup "authTicket" with
        | none =>
            refine ⟨"authTicket", ?_⟩
            simp [authenticate, _post, hrs, getItem, hd, ha, bind, Except.bind, pure, Except.pure]
        | some a =>
            rw [ha] at hpath
            simp only [Option.bind] at hpath
            refine ⟨"token", ?_⟩
            simp [authenticate, _post, hrs, getItem, hd, ha, hpath, bind, Except.bind, pure, Except.pure]

/-- Witness for `authenticate_spec`: the scenario of the spec, a 200 response
with token `"abc"` and a 401 response. -/
theorem authenticate_spec_witness :
    authenticate { status_code := 200, body := loginBody } = Except.ok (Json.str "abc")
      ∧ authenticate { status_code := 401, body := loginBody }
          = Except.error (RunError.httpError 401) :=
  ⟨(authenticate_spec { status_code := 200, body := loginBody }).1 (Json.str "abc")
      (by decide) (by decide) rfl,
   (authenticate_spec { status_code := 401, body := loginBody }).2.1 (by decide) (by decide)⟩

/-- A concrete fetched payload: latest reading plus the rising series. -/
def gdExample : GlucoseData :=
  { data := { connection := { glucoseItem :=
                { Timestamp := "10/12/2026 08:20", Value := 130, Trend := none } },
              graphData := sampleRise } }

/-- An environment whose login endpoint answers 401. -/
def envAuthFail : Env :=
  { loginResponse := { status_code := 401, body := loginBody },
    graphResponse := { status_code := 200, body := gdExample },
    destinationStatus := 200 }

/-- C7 counterexample: when the login inside `__init__` fails, the `with`
body is never entered, `__exit__` never runs, and the session is not
closed even though the run terminates with the error. -/
theorem session_not_closed_on_auth_failure :
    (runMain envAuthFail).sessionClosed = false
      ∧ (runMain envAuthFail).outcome = Except.error (RunError.httpError 401) := by
  constructor
  · rfl
  · rfl

/-- C7 amended: the session is closed exactly when construction (the login
step inside `__init__`) succeeded; all later failures still close it. -/
theorem session_closed_iff_init_ok (env : Env) :
    (runMain env).sessionClosed = true
      ↔ ∃ hs, LibreDataHandler.init env.loginResponse = Except.ok hs := by
  cases hinit : LibreDataHandler.init env.loginResponse with
  | error e => simp [runMain, hinit]
  | ok hs =>
      cases hg : get_graph env.graphResponse with
      | error e2 => simp [runMain, hinit, hg]
      | ok gd => simp [runMain, hinit, hg]

/-- C8 counterexample: a non-2xx (here 301) destination response does not
raise, contradicting "any non-2xx response … raises an error that is
fatal". -/
theorem send_non2xx_not_fatal :
    (send_glucose_data gdExample 301).outcome = Except.ok ()
      ∧ ¬(200 ≤ 301 ∧ 301 < 300) := by
  constructor
  · have h : _calculate_trend gdExample.data.graphData = Except.ok "up" := by
      norm_num [_calculate_trend, linregress, gdExample, sampleRise, List.forall_mem_cons,
        List.range_succ, Function.comp]
    simp [send_glucose_data, h, raise_for_status]
  · omega

/-- C8 amended: the posted body is a JSON object with exactly the keys
`time`, `value`, `trend` — `trend` the computed label, `time`/`value` from
the latest fetched reading — and the destination response is fatal exactly
when its status is 4xx/5xx. -/
theorem send_payload_spec (gd : GlucoseData) (destinationStatus : Nat) (label : String)
    (h : _calculate_trend gd.data.graphData = Except.ok label) :
    (send_glucose_data gd destinationStatus).posted =
        some (Json.obj [("time", Json.str gd.data.connection.glucoseItem.Timestamp),
                        ("value", Json.num gd.data.connection.glucoseItem.Value),
                        ("trend", Json.str label)])
      ∧ ((send_glucose_data gd destinationStatus).outcome
            = Except.error (RunError.httpError destinationStatus)
          ↔ 400 ≤ destinationStatus ∧ destinationStatus < 600) := by
  constructor
  · simp [send_glucose_data, h]
  · by_cases hC : 400 ≤ destinationStatus ∧ destinationStatus < 600
    · simp [send_glucose_data, h, raise_for_status, hC]
    · simp [send_glucose_data, h, raise_for_status, hC]

/-- Witness for `send_payload_spec` at the concrete payload and a 404
destination. -/
theorem send_payload_spec_witness :
    (send_glucose_data gdExample 404).posted =
        some (Json.obj [("time", Json.str gdExample.data.connection.glucoseItem.Timestamp),
                        ("value", Json.num gdExample.data.connection.glucoseItem.Value),
                        ("trend", Json.str "up")])
      ∧ ((send_glucose_data gdExample 404).outcome
            = Except.error (RunError.httpError 404)
          ↔ 400 ≤ 404 ∧ 404 < 600) :=
  send_payload_spec gdExample 404 "up"
    (by norm_num [_calculate_trend, linregress, gdExample, sampleRise, List.forall_mem_cons,
      List.range_succ, Function.comp])

/-- C9: the authorized header set is a pure function of the token — the
fixed base header dictionary plus exactly one appended
`Authorization: Bearer token` entry. -/
theorem authorized_headers_pure (token : String) :
    add_bearer_token_to_headers _build_headers token
      = _build_headers ++ [("Authorization", "Bearer " ++ token)] := by
  rfl

/-- C10: before posting downstream, the computed label is written under
the `Trend` key into the latest reading of the held payload (added or
overwritten),
so the stored payload differs from the fetched one whenever its prior
`Trend` differed from the computed label. -/
theorem send_mutates_stored_payload (gd : GlucoseData) (destinationStatus : Nat) (label : String)
    (h : _calculate_trend gd.data.graphData = Except.ok label) :
    (send_glucose_data gd destinationStatus).glucose_data.data.connection.glucoseItem.Trend
        = some (Json.str label)
      ∧ (gd.data.connection.glucoseItem.Trend ≠ some (Json.str label) →
          (send_glucose_data gd destinationStatus).glucose_data ≠ gd) := by
  have h1 : (send_glucose_data gd destinationStatus).glucose_data.data.connection.glucoseItem.Trend
      = some (Json.str label) := by
    simp [send_glucose_data, h]
  refine ⟨h1, ?_⟩
  intro hne hceq
  rw [hceq] at h1
  exact hne h1

/-- Witness for `send_mutates_stored_payload` at the concrete payload. -/
theorem send_mutates_stored_payload_witness :
    (send_glucose_data gdExample 200).glucose_data.data.connection.glucoseItem.Trend
        = some (Json.str "up")
      ∧ (send_glucose_data gdExample 200).glucose_data ≠ gdExample :=
  ⟨(send_mutates_stored_payload gdExample 200 "up"
      (by norm_num [_calculate_trend, linregress, gdExample, sampleRise, List.forall_mem_cons,
        List.range_succ, Function.comp])).1,
   (send_mutates_stored_payload gdExample 200 "up"
      (by norm_num [_calculate_trend, linregress, gdExample, sampleRise, List.forall_mem_cons,
        List.range_succ, Function.comp])).2
     (by simp [gdExample])⟩

end LibreCGM
